import Mathlib

/-!
Verification development for the TownesDev bot platform core:
a shallow embedding of the command registry, command executor,
license manager, argument parser/autocomplete path, and the per-guild
feature loader, with theorems about the claims of the specification.

Maps (JS `Map`) are embedded as association lists with first-match
lookup and in-place replacement on insert, matching `Map.get`/`Map.set`
observable behaviour. Timestamps (`Date.now()`, `new Date()`) are
embedded as an explicit `now : Int` parameter in milliseconds.
External effect providers (command handlers, feature enable hooks,
feature event handlers, autocomplete suppliers) are embedded as
explicit parameters describing their outcome (resolve vs. reject).
-/

/-- Association-list lookup: first entry with the given key (JS Map.get). -/
def lookupK {α : Type} : List (String × α) → String → Option α
  | [], _ => none
  | (k2, v) :: rest, k => if k2 == k then some v else lookupK rest k

/-- Association-list insert-or-replace (JS Map.set). -/
def setK {α : Type} : List (String × α) → String → α → List (String × α)
  | [], k, v => [(k, v)]
  | (k2, v2) :: rest, k, v =>
      if k2 == k then (k, v) :: rest else (k2, v2) :: setK rest k v

/-! ## License manager (LicenseManager, src/apps/bot-runner/src/license.ts)

The `License` zod schema: id, guildId, type in \x7bpremium, enterprise\x7d,
feature key list, issuedAt, optional expiresAt, optional revokedAt.
Dates are embedded as `Int` milliseconds.
-/

inductive LicenseType where
  | premium
  | enterprise
deriving DecidableEq, BEq, Repr

structure License where
  id : String
  guildId : String
  type : LicenseType
  features : List String
  issuedAt : Int
  expiresAt : Option Int
  revokedAt : Option Int
deriving DecidableEq, Repr

/-- Machine-readable denial reasons; the source returns the distinct strings
"No license found for this guild", "License has expired",
"License has been revoked" and a feature-specific not-included message
carrying the feature key. -/
inductive DenyReason where
  | noLicense
  | expired
  | revoked
  | notIncluded (featureKey : String)
deriving DecidableEq, Repr

/-- LicenseValidationResult: valid flag plus optional reason
(the source also echoes the license back; that field is not needed by
any property and is omitted). -/
structure LicenseValidationResult where
  valid : Bool
  reason : Option DenyReason
deriving DecidableEq, Repr

namespace LicenseManager

/-- Source: `license.expiresAt && license.expiresAt < new Date()`
(a Date object is always truthy, so this is: expiry present and past). -/
def isExpired (license : License) (now : Int) : Bool :=
  match license.expiresAt with
  | none => false
  | some e => e < now

/-- LicenseManager.validateFeatureAccess: checks, in order, record
presence, expiry, revocation, and membership of the feature key in the
licensed feature list. -/
def validateFeatureAccess (licenses : List (String × License)) (now : Int)
    (guildId featureKey : String) : LicenseValidationResult :=
  match lookupK licenses guildId with
  | none => { valid := false, reason := some .noLicense }
  | some license =>
    if isExpired license now then { valid := false, reason := some .expired }
    else if license.revokedAt.isSome then { valid := false, reason := some .revoked }
    else if license.features.contains featureKey then { valid := true, reason := none }
    else { valid := false, reason := some (.notIncluded featureKey) }

/-- LicenseManager.hasPremiumAccess: no record means no access; otherwise
validity of the empty feature key ORed with the license type being
premium or enterprise. -/
def hasPremiumAccess (licenses : List (String × License)) (now : Int)
    (guildId : String) : Bool :=
  match lookupK licenses guildId with
  | none => false
  | some license =>
    (validateFeatureAccess licenses now guildId "").valid
      || license.type == LicenseType.premium
      || license.type == LicenseType.enterprise

end LicenseManager

/-! ## Argument parser (CommandParser, src/apps/bot-runner/src/commands/parser.ts) -/

/-- Primitive type tag of a command argument. -/
inductive ArgKind where
  | string
  | integer
  | number
  | boolean
  | user
  | channel
  | role
  | mentionable
  | attachment
deriving DecidableEq, Repr

/-- Value of a choice entry: the source allows string or number values.
JS numbers are embedded as Int (no claim depends on fractional values). -/
inductive ChoiceVal where
  | str (s : String)
  | num (n : Int)
deriving DecidableEq, Repr

structure Choice where
  name : String
  value : ChoiceVal
deriving DecidableEq, Repr

/-- CommandArgument definition. Optional numeric fields mirror the
source: minLength/maxLength are guarded by truthiness (0 disables the
check), minValue/maxValue by presence. -/
structure CommandArgument where
  name : String
  description : String
  type : ArgKind
  required : Bool
  choices : List Choice
  minValue : Option Int
  maxValue : Option Int
  minLength : Option Nat
  maxLength : Option Nat
  autocomplete : Bool
deriving DecidableEq, Repr

/-- Runtime value delivered by the transport for one option.
user/channel/role/mentionable/attachment references are opaque. -/
inductive ArgValue where
  | str (s : String)
  | num (n : Int)
  | boolean (b : Bool)
  | ref
deriving DecidableEq, Repr

namespace CommandParser

/-- Choice equality as the source's `===` between a parsed value and a
declared choice value. -/
def choiceMatches (c : ChoiceVal) (v : ArgValue) : Bool :=
  match c, v with
  | .str s, .str t => s == t
  | .num n, .num m => n == m
  | _, _ => false

def minLenViolated (bound : Option Nat) (len : Nat) : Bool :=
  match bound with
  | none => false
  | some m => m != 0 && len < m

def maxLenViolated (bound : Option Nat) (len : Nat) : Bool :=
  match bound with
  | none => false
  | some m => m != 0 && m < len

def minValViolated (bound : Option Int) (v : Int) : Bool :=
  match bound with
  | none => false
  | some m => v < m

def maxValViolated (bound : Option Int) (v : Int) : Bool :=
  match bound with
  | none => false
  | some m => m < v

/-- CommandParser.validateArgumentType: the per-type switch followed by
the choices check. -/
def validateArgumentType (value : ArgValue) (argDef : CommandArgument) :
    Except String ArgValue :=
  let typeCheck : Except String Unit :=
    match argDef.type with
    | .string =>
      match value with
      | .str s =>
        if minLenViolated argDef.minLength s.length then .error "String too short"
        else if maxLenViolated argDef.maxLength s.length then .error "String too long"
        else .ok ()
      | _ => .error "Expected string"
    | .integer | .number =>
      match value with
      | .num n =>
        if minValViolated argDef.minValue n then .error "Value too small"
        else if maxValViolated argDef.maxValue n then .error "Value too large"
        else .ok ()
      | _ => .error "Expected number"
    | .boolean =>
      match value with
      | .boolean _ => .ok ()
      | _ => .error "Expected boolean"
    | .user | .channel | .role | .mentionable | .attachment =>
      .ok ()
  match typeCheck with
  | .error e => .error e
  | .ok _ =>
    if argDef.choices.length > 0
        && !(argDef.choices.any fun c => choiceMatches c.value value) then
      .error "Invalid choice"
    else .ok value

def parseArgsLoop (raw : String → Option ArgValue) :
    List CommandArgument → List (String × ArgValue) →
    Except String (List (String × ArgValue))
  | [], acc => .ok acc
  | argDef :: rest, acc =>
    match raw argDef.name with
    | none =>
      if argDef.required then
        .error ("Required argument " ++ argDef.name ++ " is missing")
      else parseArgsLoop raw rest acc
    | some value =>
      match validateArgumentType value argDef with
      | .error e => .error e
      | .ok v => parseArgsLoop raw rest (setK acc argDef.name v)

/-- CommandParser.parseArguments: iterate the declared definitions in
order; the first thrown error aborts parsing. -/
def parseArguments (raw : String → Option ArgValue)
    (argumentDefinitions : List CommandArgument) :
    Except String (List (String × ArgValue)) :=
  parseArgsLoop raw argumentDefinitions []

/-- Candidate sent to the transport by the autocomplete path. -/
structure ACOption where
  name : String
  value : String
deriving DecidableEq, Repr

def choiceValToString (c : ChoiceVal) : String :=
  match c with
  | .str s => s
  | .num n => toString n

/-- Case-insensitive substring test, as JS
`hay.toLowerCase().includes(needle.toLowerCase())` (lower-casing per
character, which is what the basic-latin lowering amounts to). -/
def containsSub : List Char → List Char → Bool
  | needle, [] => needle.isEmpty
  | needle, c :: t => needle.isPrefixOf (c :: t) || containsSub needle t

def containsCI (needle hay : String) : Bool :=
  containsSub (needle.data.map Char.toLower) (hay.data.map Char.toLower)

/-- Candidate source: the caller-supplied asynchronous supplier when one
is provided (its outcome embedded as an Except), otherwise the static
choice list of the argument definition, with values stringified. -/
def fetchOptions (argDef : CommandArgument)
    (supplier : Option (Except String (List ACOption))) :
    Except String (List ACOption) :=
  match supplier with
  | some outcome => outcome
  | none => .ok (argDef.choices.map fun c => ⟨c.name, choiceValToString c.value⟩)

/-- CommandParser.handleAutocomplete. Returns the candidate list handed
to `interaction.respond`, or none when no response is sent (unknown or
non-autocomplete argument, or a failure anywhere in the path, which the
source catches and logs without re-throwing). -/
def handleAutocomplete (focusedName focusedValue : String)
    (argumentDefinitions : List CommandArgument)
    (supplier : Option (Except String (List ACOption))) :
    Option (List ACOption) :=
  match argumentDefinitions.find? (fun a => a.name == focusedName) with
  | none => none
  | some argDef =>
    if !argDef.autocomplete then none
    else
      match fetchOptions argDef supplier with
      | .error _ => none
      | .ok options =>
        some ((options.filter fun o =>
          containsCI focusedValue o.name || containsCI focusedValue o.value).take 25)

end CommandParser

/-! ## Command registry (CommandRegistry, src/apps/bot-runner/src/commands/registry.ts) -/

/-- CommandMetadata. Optional permission/role/alias arrays are embedded
as plain lists ([] behaves as absent in every consumer). -/
structure CommandMetadata where
  name : String
  description : String
  category : Option String
  permissions : List String
  roles : List String
  cooldown : Nat
  guildOnly : Bool
  ownerOnly : Bool
  premiumOnly : Bool
  enabled : Bool
  aliases : List String
  arguments : Option (List CommandArgument)
deriving DecidableEq, Repr

/-- CommandHandler: metadata plus the outcome of its `execute` function
(true: the promise resolves; false: it rejects). The slash-command
builder is transport-layer data and is omitted. -/
structure CommandHandler where
  metadata : CommandMetadata
  execOk : Bool
deriving DecidableEq, Repr

/-- The three Maps owned by CommandRegistry: commands, alias index, and
the cooldown table command name -> user id -> expiry timestamp. -/
structure RegistryState where
  commands : List (String × CommandHandler)
  aliases : List (String × String)
  cooldowns : List (String × List (String × Int))
deriving DecidableEq, Repr

namespace CommandRegistry

/-- CommandMetadataSchema constraints on the shape of the metadata
(name 1..32, description 1..100, cooldown at least 0 which Nat gives). -/
def validMetadata (m : CommandMetadata) : Bool :=
  1 ≤ m.name.length && m.name.length ≤ 32
    && 1 ≤ m.description.length && m.description.length ≤ 100

/-- Alias indexing loop of register: each declared alias is indexed to
the command name unless the alias is already present, in which case it
is skipped with a warning. -/
def addAliases (name : String) : List String → List (String × String) →
    List (String × String)
  | [], m => m
  | a :: rest, m =>
    if (lookupK m a).isSome then addAliases name rest m
    else addAliases name rest (setK m a name)

/-- CommandRegistry.register: validate the metadata (a zod throw is
caught and reported as false with no mutation), then overwrite the
command under its name (warning only on conflict), then index aliases.
Builder construction is discord.js transport validation and happens
before any mutation; it is embedded as a no-op. -/
def register (st : RegistryState) (command : CommandHandler) :
    Bool × RegistryState :=
  if !validMetadata command.metadata then (false, st)
  else
    (true,
      { st with
        commands := setK st.commands command.metadata.name command,
        aliases := addAliases command.metadata.name command.metadata.aliases st.aliases })

/-- CommandRegistry.get: direct name first, then the alias index. -/
def get (st : RegistryState) (name : String) : Option CommandHandler :=
  match lookupK st.commands name with
  | some h => some h
  | none =>
    match lookupK st.aliases name with
    | some realName => lookupK st.commands realName
    | none => none

/-- CommandRegistry.isOnCooldown: remaining milliseconds, clamped at 0. -/
def isOnCooldown (st : RegistryState) (commandName userId : String)
    (now : Int) : Int :=
  match lookupK st.cooldowns commandName with
  | none => 0
  | some userMap =>
    match lookupK userMap userId with
    | none => 0
    | some expiry => max 0 (expiry - now)

/-- CommandRegistry.setCooldown: store expiry now + durationMs. -/
def setCooldown (st : RegistryState) (commandName userId : String)
    (durationMs : Int) (now : Int) : RegistryState :=
  { st with
    cooldowns := setK st.cooldowns commandName
      (setK ((lookupK st.cooldowns commandName).getD []) userId (now + durationMs)) }

end CommandRegistry

/-! ## Command executor (CommandExecutor, src/apps/bot-runner/src/commands/executor.ts) -/

/-- Guild member data reachable through the interaction: granted
permission strings and held role ids. -/
structure Member where
  perms : List String
  roles : List String

/-- One inbound invocation: command name as invoked, invoker id,
optional guild id, optional member, and the raw option values the
transport delivers (by option name). -/
structure Invocation where
  commandName : String
  userId : String
  guildId : Option String
  member : Option Member
  raw : String → Option ArgValue

/-- CommandContext as assembled by createCommandContext (the fields the
decision pipeline reads). -/
structure CommandContext where
  guild : Option String
  isOwner : Bool
  member : Option Member
  isPremium : Bool

/-- Context closure hasPermission: member.permissions?.has(p) or false. -/
def CommandContext.hasPermission (ctx : CommandContext) (p : String) : Bool :=
  match ctx.member with
  | none => false
  | some m => m.perms.contains p

/-- Context closure hasRole: member.roles?.cache?.has(r) or false. -/
def CommandContext.hasRole (ctx : CommandContext) (r : String) : Bool :=
  match ctx.member with
  | none => false
  | some m => m.roles.contains r

namespace CommandExecutor

/-- CommandExecutor.createCommandContext: owner flag from the owner id
list, premium flag from the license manager with the guild id or "". -/
def createCommandContext (ownerIds : List String)
    (licenses : List (String × License)) (now : Int) (inv : Invocation) :
    CommandContext :=
  { guild := inv.guildId,
    isOwner := ownerIds.contains inv.userId,
    member := inv.member,
    isPremium := LicenseManager.hasPremiumAccess licenses now (inv.guildId.getD "") }

/-- CommandExecutor.checkPermissions: owner-only, guild-only, required
permissions, required roles, in that order. -/
def checkPermissions (ctx : CommandContext) (metadata : CommandMetadata) : Bool :=
  if metadata.ownerOnly && !ctx.isOwner then false
  else if metadata.guildOnly && ctx.guild.isNone then false
  else if !(metadata.permissions.all ctx.hasPermission) then false
  else if !(metadata.roles.all ctx.hasRole) then false
  else true

/-- Failure taxonomy of the decision pipeline (each corresponds to one
thrown error message in executeCommand). -/
inductive ExecError where
  | unknownCommand
  | disabled
  | onCooldown (remainingMs : Int)
  | permissionDenied
  | premiumRequired
  | argumentError (msg : String)
  | handlerFailed
deriving DecidableEq, Repr

/-- Argument parsing step: only runs when the metadata declares
argument definitions. -/
def parseForCommand (inv : Invocation) (handler : CommandHandler) :
    Except String (List (String × ArgValue)) :=
  match handler.metadata.arguments with
  | none => .ok []
  | some defs => CommandParser.parseArguments inv.raw defs

/-- CommandExecutor.executeCommand: the full per-invocation decision
pipeline. Returns the outcome (none on success) and the registry state
after the call; the catch-all reply path carries no registry state and
is not part of the state transition. -/
def executeCommand (ownerIds : List String)
    (licenses : List (String × License)) (st : RegistryState)
    (inv : Invocation) (now : Int) : Option ExecError × RegistryState :=
  match CommandRegistry.get st inv.commandName with
  | none => (some .unknownCommand, st)
  | some handler =>
    if !handler.metadata.enabled then (some .disabled, st)
    else if 0 < CommandRegistry.isOnCooldown st inv.commandName inv.userId now then
      (some (.onCooldown (CommandRegistry.isOnCooldown st inv.commandName inv.userId now)), st)
    else if !checkPermissions (createCommandContext ownerIds licenses now inv) handler.metadata then
      (some .permissionDenied, st)
    else if handler.metadata.premiumOnly
        && !(createCommandContext ownerIds licenses now inv).isPremium then
      (some .premiumRequired, st)
    else
      match parseForCommand inv handler with
      | .error msg => (some (.argumentError msg), st)
      | .ok _ =>
        if handler.execOk then
          (none,
            if 0 < handler.metadata.cooldown then
              CommandRegistry.setCooldown st inv.commandName inv.userId
                (handler.metadata.cooldown * 1000) now
            else st)
        else (some .handlerFailed, st)

/-- Pipeline transcription of the specification (section 4.6): resolve,
enabled, cooldown, context, permission, premium, arguments, handler, in
this fixed order with first failure winning. Used to state claim C1 as
a refinement of the executor. -/
def firstFailure (ownerIds : List String)
    (licenses : List (String × License)) (st : RegistryState)
    (inv : Invocation) (now : Int) : Option ExecError :=
  match CommandRegistry.get st inv.commandName with
  | none => some .unknownCommand
  | some handler =>
    if !handler.metadata.enabled then some .disabled
    else if 0 < CommandRegistry.isOnCooldown st inv.commandName inv.userId now then
      some (.onCooldown (CommandRegistry.isOnCooldown st inv.commandName inv.userId now))
    else if !checkPermissions (createCommandContext ownerIds licenses now inv) handler.metadata then
      some .permissionDenied
    else if handler.metadata.premiumOnly
        && !(createCommandContext ownerIds licenses now inv).isPremium then
      some .premiumRequired
    else
      match parseForCommand inv handler with
      | .error msg => some (.argumentError msg)
      | .ok _ => if handler.execOk then none else some .handlerFailed

end CommandExecutor

/-! ## Feature loader (FeatureLoader, src/apps/bot-runner/src/features/loader.ts) -/

/-- Feature definition data the loader reads: key, premium flag, and
which event names the plugin object declares a handler function for
(the reflective `typeof (feature as any)[eventName] === "function"`). -/
structure FeatureDef where
  key : String
  isPremium : Bool
  declares : String → Bool

/-- FeatureInstance runtime record: the feature plus its enabled flag
(context, config and loadedAt play no role in the claimed properties). -/
structure FeatureInstance where
  feature : FeatureDef
  enabled : Bool

/-- FeatureLoader state: guild id -> feature key -> instance, plus an
instrumentation counter of enable-hook invocations used to express the
at-most-once property. -/
structure LoaderState where
  instances : List (String × List (String × FeatureInstance))
  hookCalls : Nat

namespace FeatureLoader

/-- FeatureLoader.enableFeature. Missing guild or missing instance
throws and is caught (false, no change). An already-enabled instance
returns true immediately. A premium feature re-checks the license
manager. Then the enable hook runs; `hook n` is the outcome of the
n-th hook invocation overall (true: resolves; false: rejects, caught,
reported as false with the enabled flag unchanged). -/
def enableFeature (licenses : List (String × License)) (now : Int)
    (hook : Nat → Bool) (st : LoaderState) (guildId featureKey : String) :
    Bool × LoaderState :=
  match lookupK st.instances guildId with
  | none => (false, st)
  | some guildInstances =>
    match lookupK guildInstances featureKey with
    | none => (false, st)
    | some inst =>
      if inst.enabled then (true, st)
      else if inst.feature.isPremium
          && !(LicenseManager.validateFeatureAccess licenses now guildId featureKey).valid then
        (false, st)
      else
        if hook st.hookCalls then
          (true,
            { instances := setK st.instances guildId
                (setK guildInstances featureKey { inst with enabled := true }),
              hookCalls := st.hookCalls + 1 })
        else (false, { st with hookCalls := st.hookCalls + 1 })

/-- FeatureLoader.handleEvent: fan the event out to every enabled
instance whose feature declares a handler for it; each handler runs
with its own catch, and the results are joined with allSettled.
`outcomes k e` is whether the handler of feature k for event e
resolves (true) or rejects (false, caught and logged). The returned
list records, in iteration order, each invoked feature key with its
settled outcome; the operation itself is total and never propagates a
handler failure. -/
def handleEvent (outcomes : String → String → Bool) (st : LoaderState)
    (guildId eventName : String) : List (String × Bool) :=
  match lookupK st.instances guildId with
  | none => []
  | some guildInstances =>
    guildInstances.filterMap fun p =>
      if p.2.enabled && p.2.feature.declares eventName then
        some (p.1, outcomes p.1 eventName)
      else none

end FeatureLoader

/-! ## Concrete fixtures used by witnesses and counterexamples -/

/-- Enable hook that always rejects (its promise is rejected). -/
def alwaysFailHook : Nat → Bool := fun _ => false

/-- Enable hook that always resolves. -/
def alwaysOkHook : Nat → Bool := fun _ => true

def c9License : License :=
  { id := "lic9", guildId := "g1", type := .premium,
    features := ["welcome"], issuedAt := 0, expiresAt := none, revokedAt := none }

def c10License : License :=
  { id := "lic10", guildId := "g1", type := .enterprise,
    features := ["welcome", "xp"], issuedAt := 0, expiresAt := some 100,
    revokedAt := none }

def c3Feature : FeatureDef :=
  { key := "moderation", isPremium := true, declares := fun _ => false }

/-- State where moderation is already enabled for guild g1. -/
def c3State : LoaderState :=
  { instances := [("g1", [("moderation", { feature := c3Feature, enabled := true })])],
    hookCalls := 0 }

/-- State where moderation is registered but disabled for guild g1. -/
def c3DisabledState : LoaderState :=
  { instances := [("g1", [("moderation", { feature := c3Feature, enabled := false })])],
    hookCalls := 0 }

def c3License : License :=
  { id := "lic3", guildId := "g1", type := .premium, features := ["moderation"],
    issuedAt := 0, expiresAt := none, revokedAt := none }

def c4Feature : FeatureDef :=
  { key := "welcome", isPremium := false, declares := fun _ => false }

def c4State : LoaderState :=
  { instances := [("g1", [("welcome", { feature := c4Feature, enabled := false })])],
    hookCalls := 0 }

def c5Feature (k : String) : FeatureDef :=
  { key := k, isPremium := false, declares := fun e => e == "messageCreate" }

def c5State : LoaderState :=
  { instances := [("g1",
      [("alpha", { feature := c5Feature "alpha", enabled := true }),
       ("beta", { feature := c5Feature "beta", enabled := true })])],
    hookCalls := 0 }

/-- Handler outcomes where the alpha handler rejects and beta resolves. -/
def c5Outcomes : String → String → Bool := fun k _ => k == "beta"

def c6OldMeta : CommandMetadata :=
  { name := "ping", description := "old ping", category := none,
    permissions := [], roles := [], cooldown := 0, guildOnly := false,
    ownerOnly := false, premiumOnly := false, enabled := true,
    aliases := ["p"], arguments := none }

def c6Old : CommandHandler := { metadata := c6OldMeta, execOk := true }

def c6NewMeta : CommandMetadata :=
  { name := "ping", description := "new ping", category := none,
    permissions := [], roles := [], cooldown := 0, guildOnly := false,
    ownerOnly := false, premiumOnly := false, enabled := true,
    aliases := ["p", "pp"], arguments := none }

def c6New : CommandHandler := { metadata := c6NewMeta, execOk := true }

def c6State : RegistryState :=
  { commands := [("ping", c6Old)], aliases := [("p", "ping")], cooldowns := [] }

def c8Arg : CommandArgument :=
  { name := "q", description := "query", type := .string, required := false,
    choices := [], minValue := none, maxValue := none, minLength := none,
    maxLength := none, autocomplete := true }

def c8Opts : List CommandParser.ACOption :=
  [⟨"Alpha", "alpha"⟩, ⟨"Beta", "beta"⟩, ⟨"Alphabet", "alphabet"⟩]

def c1Inv : Invocation :=
  { commandName := "doesnotexist", userId := "u1", guildId := none, member := none,
    raw := fun _ => none }

def c1State : RegistryState := { commands := [], aliases := [], cooldowns := [] }

def c2Meta : CommandMetadata :=
  { name := "ping", description := "Replies with Pong", category := some "utility",
    permissions := [], roles := [], cooldown := 5, guildOnly := false, ownerOnly := false,
    premiumOnly := false, enabled := true, aliases := [], arguments := none }

def c2Handler : CommandHandler := { metadata := c2Meta, execOk := true }

def c2State : RegistryState :=
  { commands := [("ping", c2Handler)], aliases := [], cooldowns := [] }

def c2Inv : Invocation :=
  { commandName := "ping", userId := "u1", guildId := none, member := none,
    raw := fun _ => none }

/-! ## Helper lemmas -/

theorem lookupK_setK {α : Type} (m : List (String × α)) (k : String) (v : α) (a : String) :
    lookupK (setK m k v) a = if k = a then some v else lookupK m a := by
  induction m with
  | nil =>
    by_cases h : k = a <;> simp [setK, lookupK, h]
  | cons p rest ih =>
    obtain ⟨k2, v2⟩ := p
    by_cases h2 : k2 = k
    · subst h2
      by_cases h : k2 = a <;> simp [setK, lookupK, h, ih]
    · by_cases h : k2 = a
      · subst h
        have hka : ¬k = k2 := fun hh => h2 hh.symm
        simp [setK, lookupK, h2, hka]
      · simp [setK, lookupK, h2, h, ih]

theorem lookupK_setK_self {α : Type} (m : List (String × α)) (k : String) (v : α) :
    lookupK (setK m k v) k = some v := by
  rw [lookupK_setK]; simp

/-- Every stored license has type premium or enterprise, so tier-level
premium access reduces to record presence, at every instant. -/
theorem LicenseManager.hasPremiumAccess_eq_isSome (licenses : List (String × License))
    (now : Int) (guildId : String) :
    LicenseManager.hasPremiumAccess licenses now guildId
      = (lookupK licenses guildId).isSome := by
  unfold LicenseManager.hasPremiumAccess
  cases h : lookupK licenses guildId with
  | none => rfl
  | some license =>
    cases htype : license.type with
    | premium =>
      simp only [htype, Option.isSome_some]
      simp
      exact Or.inl (Or.inr (by decide))
    | enterprise =>
      simp only [htype, Option.isSome_some]
      simp
      exact Or.inr (by decide)

theorem CommandRegistry.get_setCooldown (st : RegistryState) (c u : String)
    (d t : Int) (n : String) :
    CommandRegistry.get (CommandRegistry.setCooldown st c u d t) n
      = CommandRegistry.get st n := rfl

theorem CommandRegistry.isOnCooldown_setCooldown_self (st : RegistryState)
    (c u : String) (d t now2 : Int) :
    CommandRegistry.isOnCooldown (CommandRegistry.setCooldown st c u d t) c u now2
      = max 0 (t + d - now2) := by
  unfold CommandRegistry.isOnCooldown CommandRegistry.setCooldown
  simp [lookupK_setK_self]

/-- The assembled context does not depend on the invocation instant:
premium access reduces to license-record presence. -/
theorem CommandExecutor.createCommandContext_time_indep (ownerIds : List String)
    (licenses : List (String × License)) (t1 t2 : Int) (inv : Invocation) :
    CommandExecutor.createCommandContext ownerIds licenses t1 inv
      = CommandExecutor.createCommandContext ownerIds licenses t2 inv := by
  unfold CommandExecutor.createCommandContext
  rw [LicenseManager.hasPremiumAccess_eq_isSome, LicenseManager.hasPremiumAccess_eq_isSome]

/-! ## Claim theorems -/

/-- C7: the entitlement check reports granted = false exactly when no record
exists, or the expiry is set and past, or the record is revoked, or the
feature key is absent from the granted set; each failing case carries its
distinguishing reason (checked in that priority order), and in every other
case it reports granted = true with no reason. -/
theorem validateFeatureAccess_cases (licenses : List (String × License))
    (now : Int) (guildId featureKey : String) :
    ((LicenseManager.validateFeatureAccess licenses now guildId featureKey).valid = false ↔
      (lookupK licenses guildId = none
        ∨ ∃ lic, lookupK licenses guildId = some lic
            ∧ (LicenseManager.isExpired lic now = true
               ∨ lic.revokedAt.isSome = true
               ∨ lic.features.contains featureKey = false)))
    ∧ ((LicenseManager.validateFeatureAccess licenses now guildId featureKey).reason
        = some .noLicense ↔ lookupK licenses guildId = none)
    ∧ ((LicenseManager.validateFeatureAccess licenses now guildId featureKey).reason
        = some .expired ↔
        ∃ lic, lookupK licenses guildId = some lic
          ∧ LicenseManager.isExpired lic now = true)
    ∧ ((LicenseManager.validateFeatureAccess licenses now guildId featureKey).reason
        = some .revoked ↔
        ∃ lic, lookupK licenses guildId = some lic
          ∧ LicenseManager.isExpired lic now = false ∧ lic.revokedAt.isSome = true)
    ∧ ((LicenseManager.validateFeatureAccess licenses now guildId featureKey).reason
        = some (.notIncluded featureKey) ↔
        ∃ lic, lookupK licenses guildId = some lic
          ∧ LicenseManager.isExpired lic now = false ∧ lic.revokedAt.isSome = false
          ∧ lic.features.contains featureKey = false)
    ∧ ((LicenseManager.validateFeatureAccess licenses now guildId featureKey).valid = true ↔
        (LicenseManager.validateFeatureAccess licenses now guildId featureKey).reason
          = none) := by
  cases hL : lookupK licenses guildId with
  | none =>
    simp [LicenseManager.validateFeatureAccess, hL]
  | some lic =>
    by_cases hexp : LicenseManager.isExpired lic now
    · simp [LicenseManager.validateFeatureAccess, hL, hexp]
    · by_cases hrev : lic.revokedAt.isSome
      · obtain ⟨rv, hr⟩ := Option.isSome_iff_exists.mp hrev
        simp [LicenseManager.validateFeatureAccess, hL, hexp, hr]
      · have hrN : lic.revokedAt = none := Option.not_isSome_iff_eq_none.mp hrev
        by_cases hfeat : featureKey ∈ lic.features
        · simp [LicenseManager.validateFeatureAccess, hL, hexp, hrN, hfeat]
        · simp [LicenseManager.validateFeatureAccess, hL, hexp, hrN, hfeat]

/-- C9: a tenant whose stored entitlement record has plan tier above the
lowest (its type is premium or enterprise, which every stored record has)
gets tier-level premium access regardless of the granted feature set; with
no record there is no premium access. -/
theorem hasPremiumAccess_tier (licenses : List (String × License)) (now : Int)
    (guildId : String) :
    (∀ lic, lookupK licenses guildId = some lic →
        (lic.type = .premium ∨ lic.type = .enterprise) →
        LicenseManager.hasPremiumAccess licenses now guildId = true)
      ∧ (lookupK licenses guildId = none →
        LicenseManager.hasPremiumAccess licenses now guildId = false) := by
  constructor
  · intro lic hlic _
    rw [LicenseManager.hasPremiumAccess_eq_isSome, hlic]
    rfl
  · intro h
    rw [LicenseManager.hasPremiumAccess_eq_isSome, h]
    rfl

/-- C9 witness: a premium-typed record grants tier access regardless of its
feature set; a guild without a record has none. -/
theorem hasPremiumAccess_tier_witness :
    LicenseManager.hasPremiumAccess [("g1", c9License)] 5 "g1" = true
      ∧ LicenseManager.hasPremiumAccess [("g1", c9License)] 5 "g2" = false := by
  refine ⟨(hasPremiumAccess_tier [("g1", c9License)] 5 "g1").1 c9License rfl
      (Or.inl rfl),
    (hasPremiumAccess_tier [("g1", c9License)] 5 "g2").2 (by decide)⟩

/-- C10: an expired or revoked stored license still grants tier-level
premium access, while the per-feature check denies every feature key. -/
theorem hasPremiumAccess_ignores_validity (licenses : List (String × License))
    (now : Int) (guildId : String) (lic : License)
    (hlic : lookupK licenses guildId = some lic)
    (hbad : LicenseManager.isExpired lic now = true ∨ lic.revokedAt.isSome = true) :
    LicenseManager.hasPremiumAccess licenses now guildId = true
      ∧ ∀ featureKey,
        (LicenseManager.validateFeatureAccess licenses now guildId featureKey).valid
          = false := by
  constructor
  · rw [LicenseManager.hasPremiumAccess_eq_isSome, hlic]
    rfl
  · intro k
    unfold LicenseManager.validateFeatureAccess
    rw [hlic]
    rcases hbad with h | h
    · simp [h]
    · by_cases hexp : LicenseManager.isExpired lic now <;> simp [hexp, h]

/-- C10 witness: a license expired at time 100 still reports premium access
at time 200 while the per-feature check denies a key it lists. -/
theorem hasPremiumAccess_ignores_validity_witness :
    LicenseManager.hasPremiumAccess [("g1", c10License)] 200 "g1" = true
      ∧ (LicenseManager.validateFeatureAccess
          [("g1", c10License)] 200 "g1" "welcome").valid = false := by
  have h := hasPremiumAccess_ignores_validity [("g1", c10License)] 200 "g1"
    c10License rfl (Or.inl (by decide))
  exact ⟨h.1, h.2 "welcome"⟩

/-- Helper for claim C5: the keys kept by the event fan-out do not depend
on the handler outcomes. -/
theorem filterMap_outcome_fst (o1 o2 : String → String → Bool) (e : String)
    (l : List (String × FeatureInstance)) :
    (l.filterMap fun p => if p.2.enabled && p.2.feature.declares e
        then some (p.1, o1 p.1 e) else none).map Prod.fst
      = (l.filterMap fun p => if p.2.enabled && p.2.feature.declares e
        then some (p.1, o2 p.1 e) else none).map Prod.fst := by
  induction l with
  | nil => rfl
  | cons p rest ih =>
    by_cases h1 : p.2.enabled = true
    · by_cases h2 : p.2.feature.declares e = true
      · simp [List.filterMap_cons, h1, h2]
        simpa using ih
      · simp [List.filterMap_cons, h1, h2]
        simpa using ih
    · simp [List.filterMap_cons, h1]
      simpa using ih

/-- C5: event dispatch always completes (it is a total function into the
settled-results list); the set of invoked handlers is exactly the enabled
instances declaring a handler for the event, independent of which handlers
fail; and every enabled declaring instance is invoked with its own outcome
recorded rather than propagated. -/
theorem handleEvent_isolation (o1 o2 : String → String → Bool)
    (st : LoaderState) (guildId eventName : String) :
    (FeatureLoader.handleEvent o1 st guildId eventName).map Prod.fst
        = (FeatureLoader.handleEvent o2 st guildId eventName).map Prod.fst
      ∧ ∀ gis, lookupK st.instances guildId = some gis →
          ∀ p ∈ gis, p.2.enabled = true → p.2.feature.declares eventName = true →
            (p.1, o1 p.1 eventName) ∈ FeatureLoader.handleEvent o1 st guildId eventName := by
  constructor
  · unfold FeatureLoader.handleEvent
    cases lookupK st.instances guildId with
    | none => rfl
    | some gis => exact filterMap_outcome_fst o1 o2 eventName gis
  · intro gis hgis p hp hen hdecl
    unfold FeatureLoader.handleEvent
    rw [hgis]
    rw [List.mem_filterMap]
    exact ⟨p, hp, by simp [hen, hdecl]⟩

/-- C5 witness: with the alpha handler rejecting and beta resolving, the
invoked set is independent of the outcomes and both handlers ran, the
failure being recorded, not re-thrown. -/
theorem handleEvent_isolation_witness :
    (FeatureLoader.handleEvent c5Outcomes c5State "g1" "messageCreate").map Prod.fst
        = (FeatureLoader.handleEvent (fun _ _ => true) c5State "g1" "messageCreate").map
            Prod.fst
      ∧ ("beta", true) ∈ FeatureLoader.handleEvent c5Outcomes c5State "g1" "messageCreate"
      ∧ ("alpha", false) ∈ FeatureLoader.handleEvent c5Outcomes c5State "g1"
          "messageCreate" := by
  have h := handleEvent_isolation c5Outcomes (fun _ _ => true) c5State "g1" "messageCreate"
  refine ⟨h.1, ?_, ?_⟩
  · exact h.2 _ rfl ("beta", { feature := c5Feature "beta", enabled := true })
      (List.mem_cons_of_mem _ (List.mem_cons_self _ _)) rfl rfl
  · exact h.2 _ rfl ("alpha", { feature := c5Feature "alpha", enabled := true })
      (List.mem_cons_self _ _) rfl rfl

/-- C3 counterexample: the moderation capability is premium and already
enabled for guild g1 while no license at all is stored, yet enable reports
success although the entitlement check reports not granted, refuting the
claimed equivalence in the already-enabled case. -/
theorem enableFeature_grant_iff_cex :
    (FeatureLoader.enableFeature [] 0 alwaysFailHook c3State "g1" "moderation").1 = true
      ∧ c3Feature.isPremium = true
      ∧ (LicenseManager.validateFeatureAccess [] 0 "g1" "moderation").valid = false := by
  refine ⟨rfl, rfl, rfl⟩

/-- C3 (amended): for a premium capability whose runtime record exists:
if it is already enabled, enable succeeds regardless of the entitlement
check; if it is disabled and the enable hook does not fail, enable
succeeds iff the entitlement check reports granted at the moment of the
call. -/
theorem enableFeature_grant_iff_amended (licenses : List (String × License))
    (now : Int) (hook : Nat → Bool) (st : LoaderState)
    (guildId featureKey : String) (gis : List (String × FeatureInstance))
    (inst : FeatureInstance)
    (hg : lookupK st.instances guildId = some gis)
    (hi : lookupK gis featureKey = some inst)
    (hprem : inst.feature.isPremium = true) :
    (inst.enabled = true →
        (FeatureLoader.enableFeature licenses now hook st guildId featureKey).1 = true)
      ∧ (inst.enabled = false → hook st.hookCalls = true →
        ((FeatureLoader.enableFeature licenses now hook st guildId featureKey).1 = true
          ↔ (LicenseManager.validateFeatureAccess licenses now guildId featureKey).valid
              = true)) := by
  constructor
  · intro hen
    simp [FeatureLoader.enableFeature, hg, hi, hen]
  · intro hen hhook
    by_cases hv : (LicenseManager.validateFeatureAccess licenses now guildId featureKey).valid
        = true
    · simp [FeatureLoader.enableFeature, hg, hi, hen, hprem, hv, hhook]
    · simp [FeatureLoader.enableFeature, hg, hi, hen, hprem, hv]

/-- C3 witness: with a disabled premium capability, a granting license and a
succeeding hook, enable succeeds; the equivalence is applied in the
granted direction. -/
theorem enableFeature_grant_iff_amended_witness :
    (FeatureLoader.enableFeature [("g1", c3License)] 0 alwaysOkHook c3DisabledState
        "g1" "moderation").1 = true := by
  have h := enableFeature_grant_iff_amended [("g1", c3License)] 0 alwaysOkHook
    c3DisabledState "g1" "moderation"
    [("moderation", { feature := c3Feature, enabled := false })]
    { feature := c3Feature, enabled := false } rfl rfl rfl
  exact (h.2 rfl rfl).mpr (by decide)

/-- C4 counterexample: with an enable hook that always rejects, two
consecutive enable calls for the same (tenant, capability) invoke the
hook twice (the instrumentation counter goes from 0 to 2), refuting the
at-most-once part of the claim. -/
theorem enableFeature_idempotent_cex :
    c4State.hookCalls = 0
      ∧ (FeatureLoader.enableFeature [] 0 alwaysFailHook
          (FeatureLoader.enableFeature [] 0 alwaysFailHook c4State "g1" "welcome").2
          "g1" "welcome").2.hookCalls = 2 := by
  refine ⟨rfl, rfl⟩

/-- C4 (amended): provided the first enable call does not fail inside the
capability's enable hook, calling enable twice in a row leaves exactly the
state of the single call, and the underlying enable hook runs at most once
across the two calls. -/
theorem enableFeature_idempotent_amended (licenses : List (String × License))
    (now : Int) (hook : Nat → Bool) (st : LoaderState) (guildId featureKey : String)
    (hfirst : (FeatureLoader.enableFeature licenses now hook st guildId featureKey).2.hookCalls
          = st.hookCalls
      ∨ hook st.hookCalls = true) :
    (FeatureLoader.enableFeature licenses now hook
        (FeatureLoader.enableFeature licenses now hook st guildId featureKey).2
        guildId featureKey).2
      = (FeatureLoader.enableFeature licenses now hook st guildId featureKey).2
    ∧ (FeatureLoader.enableFeature licenses now hook
        (FeatureLoader.enableFeature licenses now hook st guildId featureKey).2
        guildId featureKey).2.hookCalls ≤ st.hookCalls + 1 := by
  cases hg : lookupK st.instances guildId with
  | none =>
    have h1 : FeatureLoader.enableFeature licenses now hook st guildId featureKey
        = (false, st) := by
      simp [FeatureLoader.enableFeature, hg]
    rw [h1, h1]
    exact ⟨rfl, Nat.le_succ _⟩
  | some gis =>
    cases hi : lookupK gis featureKey with
    | none =>
      have h1 : FeatureLoader.enableFeature licenses now hook st guildId featureKey
          = (false, st) := by
        simp [FeatureLoader.enableFeature, hg, hi]
      rw [h1, h1]
      exact ⟨rfl, Nat.le_succ _⟩
    | some inst =>
      by_cases hen : inst.enabled = true
      · have h1 : FeatureLoader.enableFeature licenses now hook st guildId featureKey
            = (true, st) := by
          simp [FeatureLoader.enableFeature, hg, hi, hen]
        rw [h1, h1]
        exact ⟨rfl, Nat.le_succ _⟩
      · by_cases hpl : (inst.feature.isPremium
            && !(LicenseManager.validateFeatureAccess licenses now guildId featureKey).valid)
            = true
        · have h1 : FeatureLoader.enableFeature licenses now hook st guildId featureKey
              = (false, st) := by
            simp only [FeatureLoader.enableFeature, hg, hi]
            rw [if_neg hen, if_pos hpl]
          rw [h1, h1]
          exact ⟨rfl, Nat.le_succ _⟩
        · by_cases hh : hook st.hookCalls = true
          · have h1 : FeatureLoader.enableFeature licenses now hook st guildId featureKey
                = (true,
                  { instances := setK st.instances guildId
                      (setK gis featureKey { inst with enabled := true }),
                    hookCalls := st.hookCalls + 1 }) := by
              simp only [FeatureLoader.enableFeature, hg, hi]
              rw [if_neg hen, if_neg hpl, if_pos hh]
            have h2 : FeatureLoader.enableFeature licenses now hook
                (FeatureLoader.enableFeature licenses now hook st guildId featureKey).2
                guildId featureKey
                = (true, (FeatureLoader.enableFeature licenses now hook st guildId
                    featureKey).2) := by
              rw [h1]
              simp [FeatureLoader.enableFeature, lookupK_setK_self]
            rw [h2, h1]
            exact ⟨rfl, Nat.le_refl _⟩
          · exfalso
            have h1 : FeatureLoader.enableFeature licenses now hook st guildId featureKey
                = (false, { st with hookCalls := st.hookCalls + 1 }) := by
              simp only [FeatureLoader.enableFeature, hg, hi]
              rw [if_neg hen, if_neg hpl, if_neg hh]
            rcases hfirst with hf | hf
            · rw [h1] at hf
              exact Nat.succ_ne_self st.hookCalls hf
            · exact hh hf

/-- C4 witness: with a succeeding hook the two-call end state equals the
one-call end state and the hook ran exactly once. -/
theorem enableFeature_idempotent_amended_witness :
    (FeatureLoader.enableFeature [] 0 alwaysOkHook
        (FeatureLoader.enableFeature [] 0 alwaysOkHook c4State "g1" "welcome").2
        "g1" "welcome").2
      = (FeatureLoader.enableFeature [] 0 alwaysOkHook c4State "g1" "welcome").2
    ∧ (FeatureLoader.enableFeature [] 0 alwaysOkHook
        (FeatureLoader.enableFeature [] 0 alwaysOkHook c4State "g1" "welcome").2
        "g1" "welcome").2.hookCalls ≤ c4State.hookCalls + 1 :=
  enableFeature_idempotent_amended [] 0 alwaysOkHook c4State "g1" "welcome" (Or.inr rfl)

/-- Helper for claim C6: the alias-indexing loop maps an alias to the new
command name exactly when the alias was not already present and is
declared; already-present aliases keep their previous target. -/
theorem lookupK_addAliases (name : String) (l : List String)
    (m : List (String × String)) (a : String) :
    lookupK (CommandRegistry.addAliases name l m) a =
      if (lookupK m a).isSome then lookupK m a
      else if a ∈ l then some name else none := by
  induction l generalizing m with
  | nil =>
    cases h : lookupK m a <;> simp [CommandRegistry.addAliases, h]
  | cons b rest ih =>
    by_cases hb : (lookupK m b).isSome
    · have hstep : CommandRegistry.addAliases name (b :: rest) m
          = CommandRegistry.addAliases name rest m := by
        simp only [CommandRegistry.addAliases]
        rw [if_pos hb]
      rw [hstep, ih]
      by_cases ha : (lookupK m a).isSome
      · simp [ha]
      · have hab : ¬a = b := fun he => ha (he ▸ hb)
        simp [ha, hab, List.mem_cons]
    · have hstep : CommandRegistry.addAliases name (b :: rest) m
          = CommandRegistry.addAliases name rest (setK m b name) := by
        simp only [CommandRegistry.addAliases]
        rw [if_neg hb]
      rw [hstep, ih, lookupK_setK]
      by_cases hba : b = a
      · subst hba
        have hn : lookupK m b = none := Option.not_isSome_iff_eq_none.mp hb
        simp [hn, List.mem_cons]
      · have hab : ¬a = b := fun he => hba he.symm
        by_cases ha : (lookupK m a).isSome
        · simp [hba, ha]
        · simp [hba, hab, ha, List.mem_cons]

/-- C6: registering over an existing name succeeds and replaces the previous
registration; invalid metadata fails with no mutation; every declared alias
is indexed to the command name unless that alias already exists, in which
case only that alias is skipped and all others are still indexed. -/
theorem register_last_writer_wins (st : RegistryState) (command : CommandHandler) :
    (CommandRegistry.validMetadata command.metadata = false →
        CommandRegistry.register st command = (false, st))
      ∧ (CommandRegistry.validMetadata command.metadata = true →
        (CommandRegistry.register st command).1 = true
        ∧ lookupK (CommandRegistry.register st command).2.commands command.metadata.name
            = some command
        ∧ ∀ a, lookupK (CommandRegistry.register st command).2.aliases a =
            if (lookupK st.aliases a).isSome then lookupK st.aliases a
            else if a ∈ command.metadata.aliases then some command.metadata.name
            else none) := by
  constructor
  · intro h
    simp [CommandRegistry.register, h]
  · intro h
    refine ⟨?_, ?_, ?_⟩
    · simp [CommandRegistry.register, h]
    · simp [CommandRegistry.register, h, lookupK_setK_self]
    · intro a
      simp only [CommandRegistry.register, h, Bool.not_true, Bool.false_eq_true, if_false]
      exact lookupK_addAliases _ _ _ a

/-- C6 witness: re-registering ping succeeds and replaces the old handler;
the colliding alias p keeps its previous target while the fresh alias pp is
indexed. -/
theorem register_last_writer_wins_witness :
    (CommandRegistry.register c6State c6New).1 = true
      ∧ lookupK (CommandRegistry.register c6State c6New).2.commands "ping" = some c6New
      ∧ lookupK (CommandRegistry.register c6State c6New).2.aliases "pp" = some "ping"
      ∧ lookupK (CommandRegistry.register c6State c6New).2.aliases "p" = some "ping" := by
  have h := (register_last_writer_wins c6State c6New).2 (by decide)
  refine ⟨h.1, h.2.1, ?_, ?_⟩
  · rw [h.2.2 "pp"]
    decide
  · rw [h.2.2 "p"]
    decide

/-- C8: the autocomplete suggestion path returns at most 25 candidates, each
matching the partial input case-insensitively as a substring of its name or
value; a failing supplier is swallowed: no candidates are sent and the
failure does not propagate (the operation is total). -/
theorem handleAutocomplete_bounds (focusedName focusedValue : String)
    (defs : List CommandArgument)
    (supplier : Option (Except String (List CommandParser.ACOption))) :
    (∀ l, CommandParser.handleAutocomplete focusedName focusedValue defs supplier
          = some l →
        l.length ≤ 25
        ∧ ∀ o ∈ l, (CommandParser.containsCI focusedValue o.name
            || CommandParser.containsCI focusedValue o.value) = true)
      ∧ ∀ e, supplier = some (.error e) →
        CommandParser.handleAutocomplete focusedName focusedValue defs supplier
          = none := by
  constructor
  · intro l hl
    unfold CommandParser.handleAutocomplete at hl
    split at hl
    · exact absurd hl (by simp)
    · split at hl
      · exact absurd hl (by simp)
      · split at hl
        · exact absurd hl (by simp)
        · injection hl with h
          subst h
          refine ⟨?_, ?_⟩
          · rw [List.length_take]
            exact min_le_left _ _
          · intro o ho
            exact (List.mem_filter.mp (List.take_subset _ _ ho)).2
  · intro e he
    subst he
    unfold CommandParser.handleAutocomplete
    split
    · rfl
    · split
      · rfl
      · rfl

/-- C8 witness: of three candidates only the two matching alp survive, the
bound holds, and an erroring supplier yields no response. -/
theorem handleAutocomplete_bounds_witness :
    (([⟨"Alpha", "alpha"⟩, ⟨"Alphabet", "alphabet"⟩] : List CommandParser.ACOption).length
        ≤ 25
      ∧ ∀ o ∈ ([⟨"Alpha", "alpha"⟩, ⟨"Alphabet", "alphabet"⟩] : List CommandParser.ACOption),
          (CommandParser.containsCI "alp" o.name
            || CommandParser.containsCI "alp" o.value) = true)
      ∧ CommandParser.handleAutocomplete "q" "alp" [c8Arg] (some (.error "boom"))
        = none := by
  refine ⟨(handleAutocomplete_bounds "q" "alp" [c8Arg] (some (.ok c8Opts))).1
      [⟨"Alpha", "alpha"⟩, ⟨"Alphabet", "alphabet"⟩] (by decide),
    (handleAutocomplete_bounds "q" "alp" [c8Arg] (some (.error "boom"))).2 "boom" rfl⟩

/-- C1: the executor runs its checks in the fixed order resolve, enabled,
cooldown, context/permissions, premium, argument parsing, handler: its
outcome equals the first-failure pipeline transcribed from the
specification, and whenever any check or the handler fails the registry
state, in particular the cooldown table, is unchanged. -/
theorem executeCommand_first_failure_wins (ownerIds : List String)
    (licenses : List (String × License)) (st : RegistryState)
    (inv : Invocation) (now : Int) :
    (CommandExecutor.executeCommand ownerIds licenses st inv now).1
        = CommandExecutor.firstFailure ownerIds licenses st inv now
      ∧ ((CommandExecutor.executeCommand ownerIds licenses st inv now).1.isSome = true →
        (CommandExecutor.executeCommand ownerIds licenses st inv now).2 = st) := by
  unfold CommandExecutor.executeCommand CommandExecutor.firstFailure
  cases hget : CommandRegistry.get st inv.commandName with
  | none => exact ⟨rfl, fun _ => rfl⟩
  | some handler =>
    constructor
    · repeat' split
      all_goals rfl
    · repeat' split
      all_goals
        first
        | (intro _; rfl)
        | (intro hS; exfalso; simp at hS)

/-- C1 witness: dispatching the unknown command doesnotexist fails at the
resolution step, matching the pipeline, with the registry unchanged. -/
theorem executeCommand_first_failure_wins_witness :
    (CommandExecutor.executeCommand [] [] c1State c1Inv 0).1
        = CommandExecutor.firstFailure [] [] c1State c1Inv 0
      ∧ (CommandExecutor.executeCommand [] [] c1State c1Inv 0).2 = c1State := by
  have h := executeCommand_first_failure_wins [] [] c1State c1Inv 0
  exact ⟨h.1, h.2 rfl⟩

/-- C2: after a successful invocation at time t of a resolved command with
positive cooldown, the cooldown record for (invoked name, invoker) holds
expiry t plus the cooldown in milliseconds; a second invocation strictly
before the expiry fails the cooldown check with exactly the strictly
positive remaining time; an invocation at or after the expiry passes the
cooldown check and succeeds again. -/
theorem cooldown_roundtrip (ownerIds : List String)
    (licenses : List (String × License)) (st : RegistryState)
    (inv : Invocation) (t : Int) (handler : CommandHandler)
    (hget : CommandRegistry.get st inv.commandName = some handler)
    (hcd : 0 < handler.metadata.cooldown)
    (hok : (CommandExecutor.executeCommand ownerIds licenses st inv t).1 = none) :
    lookupK ((lookupK (CommandExecutor.executeCommand ownerIds licenses st inv t).2.cooldowns
          inv.commandName).getD []) inv.userId
        = some (t + handler.metadata.cooldown * 1000)
      ∧ (∀ t2, t2 < t + handler.metadata.cooldown * 1000 →
        (CommandExecutor.executeCommand ownerIds licenses
            (CommandExecutor.executeCommand ownerIds licenses st inv t).2 inv t2).1
          = some (.onCooldown (t + handler.metadata.cooldown * 1000 - t2))
        ∧ 0 < t + handler.metadata.cooldown * 1000 - t2)
      ∧ (∀ t3, t + handler.metadata.cooldown * 1000 ≤ t3 →
        (CommandExecutor.executeCommand ownerIds licenses
            (CommandExecutor.executeCommand ownerIds licenses st inv t).2 inv t3).1
          = none) := by
  cases hE : handler.metadata.enabled with
  | false =>
    exfalso
    simp [CommandExecutor.executeCommand, hget, hE] at hok
  | true =>
  by_cases hcd0 : 0 < CommandRegistry.isOnCooldown st inv.commandName inv.userId t
  · exfalso
    simp [CommandExecutor.executeCommand, hget, hE, hcd0] at hok
  · cases hP : CommandExecutor.checkPermissions
        (CommandExecutor.createCommandContext ownerIds licenses t inv) handler.metadata with
    | false =>
      exfalso
      simp [CommandExecutor.executeCommand, hget, hE, hcd0, hP] at hok
    | true =>
    cases hPr : handler.metadata.premiumOnly
        && !(CommandExecutor.createCommandContext ownerIds licenses t inv).isPremium with
    | true =>
      exfalso
      simp [CommandExecutor.executeCommand, hget, hE, hcd0, hP, hPr] at hok
    | false =>
    cases hparse : CommandExecutor.parseForCommand inv handler with
    | error msg =>
      exfalso
      simp [CommandExecutor.executeCommand, hget, hE, hcd0, hP, hPr, hparse] at hok
    | ok args =>
    cases hX : handler.execOk with
    | false =>
      exfalso
      simp [CommandExecutor.executeCommand, hget, hE, hcd0, hP, hPr, hparse, hX] at hok
    | true =>
    have hstate : (CommandExecutor.executeCommand ownerIds licenses st inv t).2
        = CommandRegistry.setCooldown st inv.commandName inv.userId
            (handler.metadata.cooldown * 1000) t := by
      simp [CommandExecutor.executeCommand, hget, hE, hcd0, hP, hPr, hparse, hX, hcd]
    refine ⟨?_, ?_, ?_⟩
    · rw [hstate]
      unfold CommandRegistry.setCooldown
      simp [lookupK_setK_self]
    · intro t2 ht2
      have hrem : CommandRegistry.isOnCooldown
          (CommandRegistry.setCooldown st inv.commandName inv.userId
            (handler.metadata.cooldown * 1000) t) inv.commandName inv.userId t2
          = t + handler.metadata.cooldown * 1000 - t2 := by
        rw [CommandRegistry.isOnCooldown_setCooldown_self]
        omega
      have hpos : (0 : Int) < t + handler.metadata.cooldown * 1000 - t2 := by omega
      refine ⟨?_, hpos⟩
      rw [hstate]
      simp [CommandExecutor.executeCommand, CommandRegistry.get_setCooldown, hget, hE,
        hrem, hpos]
    · intro t3 ht3
      rw [hstate]
      have hrem0 : CommandRegistry.isOnCooldown
          (CommandRegistry.setCooldown st inv.commandName inv.userId
            (handler.metadata.cooldown * 1000) t) inv.commandName inv.userId t3 = 0 := by
        rw [CommandRegistry.isOnCooldown_setCooldown_self]
        omega
      have hP3 : CommandExecutor.checkPermissions
          (CommandExecutor.createCommandContext ownerIds licenses t3 inv) handler.metadata
          = true := by
        rw [CommandExecutor.createCommandContext_time_indep ownerIds licenses t3 t inv]
        exact hP
      have hPr3 : (handler.metadata.premiumOnly
          && !(CommandExecutor.createCommandContext ownerIds licenses t3 inv).isPremium)
          = false := by
        rw [CommandExecutor.createCommandContext_time_indep ownerIds licenses t3 t inv]
        exact hPr
      simp [CommandExecutor.executeCommand, CommandRegistry.get_setCooldown, hget, hE,
        hrem0, hP3, hPr3, hparse, hX]

/-- C2 witness: ping with a 5 second cooldown succeeds at t = 1000 writing
expiry 6000, fails at t = 3000 with 3000 ms remaining, and succeeds again
at t = 6000. -/
theorem cooldown_roundtrip_witness :
    lookupK ((lookupK (CommandExecutor.executeCommand [] [] c2State c2Inv 1000).2.cooldowns
          "ping").getD []) "u1" = some 6000
      ∧ (CommandExecutor.executeCommand [] []
          (CommandExecutor.executeCommand [] [] c2State c2Inv 1000).2 c2Inv 3000).1
        = some (.onCooldown 3000)
      ∧ (CommandExecutor.executeCommand [] []
          (CommandExecutor.executeCommand [] [] c2State c2Inv 1000).2 c2Inv 6000).1
        = none := by
  have h := cooldown_roundtrip [] [] c2State c2Inv 1000 c2Handler rfl (by decide) rfl
  refine ⟨?_, ?_, ?_⟩
  · have h1 := h.1
    norm_num [c2Handler, c2Meta] at h1
    exact h1
  · have h2 := (h.2.1 3000 (by norm_num [c2Handler, c2Meta])).1
    norm_num [c2Handler, c2Meta] at h2
    exact h2
  · exact h.2.2 6000 (by norm_num [c2Handler, c2Meta])
